import Mathlib

/-!
# Verification of the hunt-waitlist data pipeline

Shallow embedding of the SQL migrations (`supabase-migration.sql`,
`supabase-migration-hunt.sql`, `supabase-migration-discovery.sql`) and of the
TypeScript frontend helpers of the hunt-waitlist repository, together with
proofs relating them to the natural-language specification.

Modelling conventions:
* `TIMESTAMPTZ` values are rationals (seconds since an arbitrary epoch);
  `FLOAT` values are rationals except where the source computes a
  transcendental power, where reals are used.
* `UUID`s are natural numbers (only equality of identifiers matters).
* Nullable SQL columns are `Option` types; `NOT NULL` columns are plain types.
* A table state is the list of its rows, in insertion order.
-/

/-- Opaque row identifiers (`UUID`): only equality is ever used. -/
abbrev UUID := Nat

/-- `TIMESTAMPTZ`, as rational seconds since an arbitrary epoch. -/
abbrev Timestamp := ℚ

/-! ## Freshness score (`supabase-migration-hunt.sql`, `calculate_freshness_score`)

```sql
CREATE OR REPLACE FUNCTION calculate_freshness_score(posted TIMESTAMPTZ, half_life_days INTEGER DEFAULT 7)
RETURNS FLOAT AS $$
DECLARE
    days_old FLOAT;
BEGIN
    IF posted IS NULL THEN
        RETURN 0.5;  -- Default for unknown dates
    END IF;
    days_old := EXTRACT(EPOCH FROM (NOW() - posted)) / 86400.0;
    RETURN POWER(0.5, days_old / half_life_days);
END;
```
The current time `NOW()` is passed explicitly; timestamps are real-valued
seconds so that the transcendental `POWER` is `Real.rpow`. -/

/-- The SQL function `calculate_freshness_score`. `now` stands for `NOW()`,
in seconds; `posted` is the (nullable) `posted_at`; `half_life_days` is the
`INTEGER` parameter whose SQL default is `7`. -/
noncomputable def calculate_freshness_score (now : ℝ) (posted : Option ℝ)
    (half_life_days : ℤ) : ℝ :=
  match posted with
  | none => 0.5
  | some p =>
    let days_old : ℝ := (now - p) / 86400.0
    Real.rpow 0.5 (days_old / (half_life_days : ℝ))

/-- The SQL default value of the `half_life_days` parameter. -/
def default_half_life_days : ℤ := 7

/-- The freshness formula exactly as the spec words it: `0.5^(age_days / 7)`
with `0.5` on a missing posted date, where `age_days` is the age of the
posting in days. -/
noncomputable def freshness_score_spec (now : ℝ) (posted : Option ℝ) : ℝ :=
  match posted with
  | none => 0.5
  | some p => Real.rpow 0.5 (((now - p) / 86400) / 7)

/-! ## Discovery queue (`supabase-migration-discovery.sql`) -/

/-- The `status` column of `discovery_queue`:
`CHECK (status IN ('pending', 'processing', 'completed', 'failed', 'skipped', 'review'))`. -/
inductive DiscoveryStatus where
  | pending
  | processing
  | completed
  | failed
  | skipped
  | review
deriving DecidableEq

/-- A row of the `discovery_queue` table. -/
structure DiscoveryItem where
  id : UUID
  name : String
  domain : Option String
  careers_url : Option String
  website_url : Option String
  source : String
  source_url : Option String
  location : Option String
  country : Option String
  description : Option String
  industry : Option String
  employee_count : Option ℤ
  funding_stage : Option String
  ats_type : Option String
  ats_identifier : Option String
  status : DiscoveryStatus
  error_message : Option String
  retry_count : ℤ
  created_at : Timestamp
  processed_at : Option Timestamp
  company_id : Option UUID
deriving DecidableEq

/-- The per-row effect of the SQL function `fail_discovery_item` on the row
whose `id` matched:

```sql
UPDATE discovery_queue
SET
  status = CASE WHEN retry_count >= 3 THEN 'failed' ELSE 'pending' END,
  error_message = error_msg,
  retry_count = retry_count + 1,
  processed_at = NOW()
WHERE id = item_id;
```
(The `SET` list is evaluated against the old row, as in SQL.) -/
def fail_item_row (error_msg : String) (now : Timestamp) (r : DiscoveryItem) :
    DiscoveryItem :=
  { r with
    status := if r.retry_count ≥ 3 then .failed else .pending
    error_message := some error_msg
    retry_count := r.retry_count + 1
    processed_at := some now }

/-- The SQL function `fail_discovery_item item_id error_msg`, acting on the
whole `discovery_queue` table state. -/
def fail_discovery_item (item_id : UUID) (error_msg : String) (now : Timestamp)
    (q : List DiscoveryItem) : List DiscoveryItem :=
  q.map (fun r => if r.id = item_id then fail_item_row error_msg now r else r)

/-- A freshly enqueued discovery item: `status` defaults to `'pending'` and
`retry_count` to `0` in the `discovery_queue` DDL. -/
def freshDiscoveryItem (r : DiscoveryItem) : Prop :=
  r.status = .pending ∧ r.retry_count = 0

/-- The SQL function `get_next_discovery_item`:

```sql
UPDATE discovery_queue
SET status = 'processing', processed_at = NOW()
WHERE id = (
  SELECT id FROM discovery_queue
  WHERE status = 'pending'
  ORDER BY created_at ASC
  LIMIT 1
  FOR UPDATE SKIP LOCKED
)
RETURNING *;
```

The inner select picks a pending row of minimal `created_at` (among equal
timestamps SQL leaves the choice open; modelled as the first such row in
table order, which is what `List.argmin` returns). The function returns the
updated row and the new table state, or `none` with the state unchanged when
no pending row exists.  `FOR UPDATE SKIP LOCKED` only matters under
concurrency, which is outside this single-state model. -/
def get_next_discovery_item (now : Timestamp) (q : List DiscoveryItem) :
    Option DiscoveryItem × List DiscoveryItem :=
  match (q.filter (fun r =>
      decide (r.status = DiscoveryStatus.pending))).argmin
        (fun r => r.created_at) with
  | none => (none, q)
  | some sel =>
    (some { sel with status := DiscoveryStatus.processing,
                     processed_at := some now },
     q.map (fun r =>
       if r.id = sel.id then
         { r with status := DiscoveryStatus.processing,
                  processed_at := some now }
       else r))

/-- What claim C6 asserts of `get_next_discovery_item now q`: with no pending
row it returns no row and leaves the state unchanged; otherwise it returns the
updated copy of an oldest pending row and the new state differs from the old
in exactly that row. -/
def GetNextSpec (now : Timestamp) (q : List DiscoveryItem) : Prop :=
  ((∀ r ∈ q, r.status ≠ DiscoveryStatus.pending) →
      get_next_discovery_item now q = (none, q)) ∧
  ((∃ r ∈ q, r.status = DiscoveryStatus.pending) →
      (get_next_discovery_item now q).1 ≠ none) ∧
  (∀ u q', get_next_discovery_item now q = (some u, q') →
    ∃ sel l₁ l₂,
      q = l₁ ++ sel :: l₂ ∧
      sel.status = DiscoveryStatus.pending ∧
      (∀ r ∈ q, r.status = DiscoveryStatus.pending →
        sel.created_at ≤ r.created_at) ∧
      u = { sel with status := DiscoveryStatus.processing,
                     processed_at := some now } ∧
      q' = l₁ ++ u :: l₂ ∧ u ≠ sel)

/-- A discovery item with the given id, creation time, status and retry
count, all metadata fields defaulted; used to build concrete table states. -/
def mkItem (i : UUID) (t : Timestamp) (st : DiscoveryStatus) (rc : ℤ) :
    DiscoveryItem :=
  { id := i, name := "Acme", domain := some "acme.test", careers_url := none,
    website_url := none, source := "seed", source_url := none,
    location := none, country := none, description := none, industry := none,
    employee_count := none, funding_stage := none, ats_type := none,
    ats_identifier := none, status := st, error_message := none,
    retry_count := rc, created_at := t, processed_at := none,
    company_id := none }

/-- First-wins choice on nullable fields: the first argument (the newer
value) when present, otherwise the second (the existing value). -/
def mergeField {α : Type} : Option α → Option α → Option α
  | some v, _ => some v
  | none, o => o

/-- Modelled from the spec: the discovery orchestrator's metadata merge. The
orchestrator code is not among the sources under verification (only the
`discovery_queue` schema is); per the spec, when a candidate's dedupe key
matches an existing queue row, the differing non-null newer metadata is
merged into that row. Identification and processing state (`id`, `domain`,
`source`, `status`, `retry_count`, `created_at`, `processed_at`,
`company_id`, `error_message`) stay with the existing row. -/
def mergeMeta (old new : DiscoveryItem) : DiscoveryItem :=
  { old with
    name := new.name
    careers_url := mergeField new.careers_url old.careers_url
    website_url := mergeField new.website_url old.website_url
    source_url := mergeField new.source_url old.source_url
    location := mergeField new.location old.location
    country := mergeField new.country old.country
    description := mergeField new.description old.description
    industry := mergeField new.industry old.industry
    employee_count := mergeField new.employee_count old.employee_count
    funding_stage := mergeField new.funding_stage old.funding_stage
    ats_type := mergeField new.ats_type old.ats_type
    ats_identifier := mergeField new.ats_identifier old.ats_identifier }

/-- Modelled from the spec: the discovery orchestrator's queue insertion with
deduplication on the `(domain, source)` key — insert a new row when no row
has the candidate's key, otherwise merge the candidate's metadata into the
matching row(s). -/
def insert_discovery_candidate (q : List DiscoveryItem) (c : DiscoveryItem) :
    List DiscoveryItem :=
  if q.any (fun r => decide (r.domain = c.domain ∧ r.source = c.source)) then
    q.map (fun r =>
      if r.domain = c.domain ∧ r.source = c.source then mergeMeta r c else r)
  else q ++ [c]

/-! ## Theorems -/

/-- **C2.** Freshness score: for every canonical job,
`calculate_freshness_score posted half_life_days` returns `0.5` when `posted`
is absent, and otherwise returns `0.5^(age_in_days / half_life_days)`; the
default `half_life_days` is `7`, and at that default the function agrees
exactly (hence within `1e-6`) with the spec formula `0.5^(age_days / 7)`. -/
theorem c2_freshness_score (now : ℝ) (posted : Option ℝ) (h : ℤ) (t : ℝ) :
    calculate_freshness_score now none h = 0.5 ∧
    calculate_freshness_score now (some t) h =
      Real.rpow 0.5 (((now - t) / 86400) / (h : ℝ)) ∧
    default_half_life_days = 7 ∧
    calculate_freshness_score now posted default_half_life_days =
      freshness_score_spec now posted ∧
    |calculate_freshness_score now posted default_half_life_days -
      freshness_score_spec now posted| ≤ 1e-6 := by
  have h2 : ∀ (hh : ℤ) (p : ℝ), calculate_freshness_score now (some p) hh =
      Real.rpow 0.5 (((now - p) / 86400) / (hh : ℝ)) := by
    intro hh p
    show Real.rpow 0.5 (((now - p) / 86400.0) / (hh : ℝ)) = _
    norm_num
  have h4 : calculate_freshness_score now posted default_half_life_days =
      freshness_score_spec now posted := by
    cases posted with
    | none => rfl
    | some p =>
      rw [h2]
      show _ = Real.rpow 0.5 (((now - p) / 86400) / 7)
      norm_num [default_half_life_days]
  refine ⟨rfl, h2 h t, rfl, h4, ?_⟩
  rw [h4]
  simp only [sub_self, abs_zero]
  norm_num

/-- **C5.** Discovery retry cap: failing an item marks it `'failed'` exactly
when its `retry_count` has reached the cap of 3, otherwise returns it to
`'pending'` with `retry_count` incremented by one; iterating failures on a
fresh item (`retry_count = 0`), the item is `'pending'` after 1–3 failures and
becomes `'failed'` on the 4th, i.e. after its 3 retries are exhausted. -/
theorem c5_fail_discovery_item (msg : String) (now : Timestamp)
    (r : DiscoveryItem) (n : ℕ) :
    ((fail_item_row msg now r).status = .failed ↔ 3 ≤ r.retry_count) ∧
    (fail_item_row msg now r).retry_count = r.retry_count + 1 ∧
    (¬ 3 ≤ r.retry_count → (fail_item_row msg now r).status = .pending) ∧
    (freshDiscoveryItem r →
      (((fail_item_row msg now)^[n] r).status = .failed ↔ 4 ≤ n)) := by
  have hcount : ∀ m : ℕ, ∀ s : DiscoveryItem,
      ((fail_item_row msg now)^[m] s).retry_count = s.retry_count + m := by
    intro m
    induction m with
    | zero => intro s; simp
    | succ k ih =>
      intro s
      rw [Function.iterate_succ_apply, ih]
      simp [fail_item_row]
      ring
  refine ⟨?_, rfl, ?_, ?_⟩
  · constructor
    · intro hs
      by_contra hlt
      simp [fail_item_row, hlt] at hs
    · intro h3
      simp [fail_item_row, h3]
  · intro hlt
    simp [fail_item_row, hlt]
  · intro h0
    cases n with
    | zero =>
      simp only [Function.iterate_zero_apply, h0.1]
      constructor
      · intro hs; exact absurd hs (by decide)
      · intro hn; omega
    | succ k =>
      rw [Function.iterate_succ_apply']
      have hk : ((fail_item_row msg now)^[k] r).retry_count = (k : ℤ) := by
        rw [hcount k r, h0.2]; ring
      constructor
      · intro hs
        by_contra hlt
        have hk3 : ¬ (3 : ℤ) ≤ ((fail_item_row msg now)^[k] r).retry_count := by
          rw [hk]
          omega
        simp [fail_item_row, hk3] at hs
      · intro h4
        have hk3 : (3 : ℤ) ≤ ((fail_item_row msg now)^[k] r).retry_count := by
          rw [hk]
          omega
        simp [fail_item_row, hk3]

/-- Concrete instantiation of the retry-cap theorem: a fresh item failed four
times is `'failed'`, and after one failure it is `'pending'` with
`retry_count = 1`. -/
theorem c5_fail_discovery_item_witness :
    (((fail_item_row "boom" (0 : ℚ))^[4]
        (mkItem 0 0 .pending 0)).status = DiscoveryStatus.failed) ∧
    ((fail_item_row "boom" (0 : ℚ)
        (mkItem 0 0 .pending 0)).status = DiscoveryStatus.pending) := by
  constructor
  · exact ((c5_fail_discovery_item "boom" 0 _ 4).2.2.2 ⟨rfl, rfl⟩).mpr (by decide)
  · exact (c5_fail_discovery_item "boom" 0 _ 4).2.2.1 (by decide)

/-- **C6.** Queue dequeue step: `get_next_discovery_item` transitions exactly
one discovery queue item from `'pending'` to `'processing'` — an oldest
pending item by `created_at` — sets its `processed_at` timestamp, returns the
updated row, and returns no row (changing nothing) when no pending item
exists.  The hypothesis is the primary-key constraint: row ids are unique. -/
theorem c6_get_next_discovery_item (now : Timestamp) (q : List DiscoveryItem)
    (hids : (q.map (fun r => r.id)).Nodup) : GetNextSpec now q := by
  cases hsel : (q.filter (fun r =>
      decide (r.status = DiscoveryStatus.pending))).argmin
        (fun r => r.created_at) with
  | none =>
    have hfe : q.filter (fun r =>
        decide (r.status = DiscoveryStatus.pending)) = [] :=
      List.argmin_eq_none.mp hsel
    refine ⟨?_, ?_, ?_⟩
    · intro _
      simp [get_next_discovery_item, hsel]
    · rintro ⟨r, hr, hp⟩
      have : r ∈ q.filter (fun r =>
          decide (r.status = DiscoveryStatus.pending)) :=
        List.mem_filter.mpr ⟨hr, by simp [hp]⟩
      rw [hfe] at this
      exact absurd this (List.not_mem_nil r)
    · intro u q' hu
      simp [get_next_discovery_item, hsel] at hu
  | some sel =>
    have hselmem : sel ∈ q.filter (fun r =>
        decide (r.status = DiscoveryStatus.pending)) :=
      List.argmin_mem (Option.mem_def.mpr hsel)
    obtain ⟨hselq, hselpb⟩ := List.mem_filter.mp hselmem
    have hselp : sel.status = DiscoveryStatus.pending := of_decide_eq_true hselpb
    have hmin : ∀ r ∈ q, r.status = DiscoveryStatus.pending →
        sel.created_at ≤ r.created_at := by
      intro r hr hp
      exact List.le_of_mem_argmin
        (List.mem_filter.mpr ⟨hr, by simp [hp]⟩) (Option.mem_def.mpr hsel)
    obtain ⟨l₁, l₂, hdecomp⟩ := List.append_of_mem hselq
    have hids' := hids
    rw [hdecomp, List.map_append, List.map_cons] at hids'
    have hsplit := List.pairwise_append.mp hids'
    have h₁ : ∀ r ∈ l₁, r.id ≠ sel.id := by
      intro r hr
      exact hsplit.2.2 r.id (List.mem_map_of_mem _ hr) sel.id
        (List.mem_cons_self _ _)
    have h₂ : ∀ r ∈ l₂, sel.id ≠ r.id := by
      intro r hr
      exact (List.pairwise_cons.mp hsplit.2.1).1 r.id (List.mem_map_of_mem _ hr)
    have hmap : q.map (fun r =>
        if r.id = sel.id then
          { r with status := DiscoveryStatus.processing,
                   processed_at := some now }
        else r) = l₁ ++
          ({ sel with status := DiscoveryStatus.processing,
                      processed_at := some now } : DiscoveryItem) :: l₂ := by
      rw [hdecomp, List.map_append, List.map_cons]
      have e₁ : l₁.map (fun r =>
          if r.id = sel.id then
            { r with status := DiscoveryStatus.processing,
                     processed_at := some now }
          else r) = l₁ := by
        refine (List.map_congr_left ?_).trans (List.map_id l₁)
        intro a ha
        simp [h₁ a ha]
      have e₂ : l₂.map (fun r =>
          if r.id = sel.id then
            { r with status := DiscoveryStatus.processing,
                     processed_at := some now }
          else r) = l₂ := by
        refine (List.map_congr_left ?_).trans (List.map_id l₂)
        intro a ha
        have hne : a.id ≠ sel.id := fun h => (h₂ a ha) h.symm
        simp [hne]
      rw [e₁, e₂]
      simp
    have hge : get_next_discovery_item now q =
        (some { sel with status := DiscoveryStatus.processing,
                         processed_at := some now },
         l₁ ++ ({ sel with status := DiscoveryStatus.processing,
                           processed_at := some now } : DiscoveryItem) :: l₂) := by
      simp only [get_next_discovery_item, hsel, hmap]
    refine ⟨?_, ?_, ?_⟩
    · intro hnone
      exact absurd hselp (hnone sel hselq)
    · intro _
      rw [hge]
      simp
    · intro u q' hu
      rw [hge] at hu
      obtain ⟨hu1, hu2⟩ := Prod.mk.injEq .. ▸ hu
      refine ⟨sel, l₁, l₂, hdecomp, hselp, hmin, (Option.some.inj hu1).symm,
        ?_, ?_⟩
      · rw [← hu2, (Option.some.inj hu1)]
      · rw [← (Option.some.inj hu1)]
        intro hcontra
        have h3 : DiscoveryStatus.processing = DiscoveryStatus.pending := by
          have h4 := congrArg DiscoveryItem.status hcontra
          rw [hselp] at h4
          exact h4
        exact absurd h3 (by decide)

/-- Concrete instantiation of the dequeue theorem on a two-element queue with
distinct ids. -/
theorem c6_get_next_discovery_item_witness :
    GetNextSpec 5 [mkItem 0 10 .pending 0, mkItem 1 3 .pending 0] :=
  c6_get_next_discovery_item 5 _ (by decide)

/-- **C7.** Discovery dedupe round-trip: inserting two candidates that share a
`(domain, source)` key into a queue holding no row with that key yields
exactly one row with that key; that row carries the first candidate's
identity and, on every metadata field, the non-null newer value when present
and the older value otherwise. -/
theorem c7_discovery_dedupe (q : List DiscoveryItem) (c₁ c₂ : DiscoveryItem)
    (hq : ∀ r ∈ q, ¬(r.domain = c₁.domain ∧ r.source = c₁.source))
    (hd : c₂.domain = c₁.domain) (hs : c₂.source = c₁.source) :
    insert_discovery_candidate (insert_discovery_candidate q c₁) c₂ =
      q ++ [mergeMeta c₁ c₂] ∧
    ((insert_discovery_candidate (insert_discovery_candidate q c₁) c₂).filter
      (fun r =>
        decide (r.domain = c₁.domain ∧ r.source = c₁.source))).length = 1 ∧
    (mergeMeta c₁ c₂).domain = c₁.domain ∧
    (mergeMeta c₁ c₂).source = c₁.source ∧
    (mergeMeta c₁ c₂).name = c₂.name ∧
    (mergeMeta c₁ c₂).careers_url = mergeField c₂.careers_url c₁.careers_url ∧
    (mergeMeta c₁ c₂).website_url = mergeField c₂.website_url c₁.website_url ∧
    (mergeMeta c₁ c₂).source_url = mergeField c₂.source_url c₁.source_url ∧
    (mergeMeta c₁ c₂).location = mergeField c₂.location c₁.location ∧
    (mergeMeta c₁ c₂).country = mergeField c₂.country c₁.country ∧
    (mergeMeta c₁ c₂).description = mergeField c₂.description c₁.description ∧
    (mergeMeta c₁ c₂).industry = mergeField c₂.industry c₁.industry ∧
    (mergeMeta c₁ c₂).employee_count =
      mergeField c₂.employee_count c₁.employee_count ∧
    (mergeMeta c₁ c₂).funding_stage =
      mergeField c₂.funding_stage c₁.funding_stage ∧
    (mergeMeta c₁ c₂).ats_type = mergeField c₂.ats_type c₁.ats_type ∧
    (mergeMeta c₁ c₂).ats_identifier =
      mergeField c₂.ats_identifier c₁.ats_identifier := by
  have hfirst : insert_discovery_candidate q c₁ = q ++ [c₁] := by
    have hany : q.any (fun r =>
        decide (r.domain = c₁.domain ∧ r.source = c₁.source)) = false := by
      rw [List.any_eq_false]
      intro r hr
      simpa using hq r hr
    unfold insert_discovery_candidate
    rw [hany, if_neg Bool.false_ne_true]
  have hsecond : insert_discovery_candidate (q ++ [c₁]) c₂ =
      q ++ [mergeMeta c₁ c₂] := by
    have hany : (q ++ [c₁]).any (fun r =>
        decide (r.domain = c₂.domain ∧ r.source = c₂.source)) = true := by
      rw [List.any_eq_true]
      exact ⟨c₁, by simp, by simp [hd, hs]⟩
    unfold insert_discovery_candidate
    rw [hany, if_pos rfl, List.map_append]
    have e₁ : q.map (fun r =>
        if r.domain = c₂.domain ∧ r.source = c₂.source then mergeMeta r c₂
        else r) = q := by
      refine (List.map_congr_left ?_).trans (List.map_id q)
      intro a ha
      have : ¬(a.domain = c₂.domain ∧ a.source = c₂.source) := by
        rw [hd, hs]
        exact hq a ha
      simp [this]
    have e₂ : [c₁].map (fun r =>
        if r.domain = c₂.domain ∧ r.source = c₂.source then mergeMeta r c₂
        else r) = [mergeMeta c₁ c₂] := by
      simp [hd.symm, hs.symm]
    rw [e₁, e₂]
  have hres : insert_discovery_candidate (insert_discovery_candidate q c₁) c₂ =
      q ++ [mergeMeta c₁ c₂] := by rw [hfirst, hsecond]
  refine ⟨hres, ?_, rfl, rfl, rfl, rfl, rfl, rfl, rfl, rfl, rfl, rfl, rfl,
    rfl, rfl, rfl⟩
  rw [hres, List.filter_append]
  have hfq : q.filter (fun r =>
      decide (r.domain = c₁.domain ∧ r.source = c₁.source)) = [] := by
    rw [List.filter_eq_nil_iff]
    intro r hr
    simpa using hq r hr
  have hfm : ([mergeMeta c₁ c₂]).filter (fun r =>
      decide (r.domain = c₁.domain ∧ r.source = c₁.source)) =
      [mergeMeta c₁ c₂] := by
    simp [mergeMeta]
  rw [hfq, hfm]
  simp

/-- The first of two duplicate-key discovery candidates: carries a
description but no industry. -/
def dupCandidateA : DiscoveryItem :=
  { mkItem 0 0 .pending 0 with description := some "jobs board" }

/-- The second duplicate-key candidate: same `(domain, source)` key as
`dupCandidateA`, carries an industry but no description. -/
def dupCandidateB : DiscoveryItem :=
  { mkItem 1 1 .pending 0 with industry := some "fintech" }

/-- Concrete instantiation of the dedupe round-trip: inserting the two
duplicate-key candidates into an empty queue yields the single merged row. -/
theorem c7_discovery_dedupe_witness :
    insert_discovery_candidate
        (insert_discovery_candidate [] dupCandidateA) dupCandidateB =
      [] ++ [mergeMeta dupCandidateA dupCandidateB] :=
  (c7_discovery_dedupe [] dupCandidateA dupCandidateB
    (by intro r hr; exact absurd hr (List.not_mem_nil r)) rfl rfl).1

/-! ## Canonical jobs, candidate profiles and matches
(`supabase-migration-hunt.sql`) -/

/-- A `vector(384)` value: pgvector's typed column admits exactly
384-dimensional vectors. -/
def Vec384 : Type := { l : List ℚ // l.length = 384 }

instance : DecidableEq Vec384 := fun a b =>
  decidable_of_iff (a.val = b.val) Subtype.ext_iff.symm

/-- The closed value set of `jobs.role_family`
(`CHECK (role_family IN (...))`, `NOT NULL`). -/
def roleFamilyValues : List String :=
  ["software_engineering", "infrastructure", "data", "product", "design",
   "engineering_management", "sales", "marketing", "operations", "finance",
   "legal", "people", "customer_success", "other"]

/-- The closed value set of `jobs.seniority`. -/
def seniorityValues : List String :=
  ["intern", "junior", "mid", "senior", "staff", "principal", "director",
   "vp", "c_level"]

/-- The closed value set of `jobs.location_type`. -/
def locationTypeValues : List String := ["remote", "hybrid", "onsite"]

/-- The closed value set of `jobs.employment_type`. -/
def employmentTypeValues : List String :=
  ["full_time", "part_time", "contract", "freelance", "internship"]

/-- A row of the canonical `jobs` table, column for column. -/
structure JobRow where
  id : UUID
  company_id : Option UUID
  raw_job_id : Option UUID
  title : String
  description : Option String
  source_url : String
  role_family : String
  role_specialization : Option String
  seniority : Option String
  location_type : Option String
  locations : Option (List String)
  skills : Option (List String)
  min_salary : Option ℤ
  max_salary : Option ℤ
  employment_type : Option String
  posted_at : Option Timestamp
  freshness_score : Option ℚ
  embedding : Option Vec384
  is_active : Option Bool
  created_at : Timestamp
  updated_at : Timestamp
deriving DecidableEq

/-- The conjunction of the `CHECK` constraints declared on `jobs`.  SQL
checks pass on `NULL` (three-valued logic), so each nullable column's check
only constrains present values.  (Pedantically, a check of the form
`x IN (v₁, …, NULL)` can never evaluate to `FALSE` in SQL; the model uses the
evidently intended reading — present value drawn from the closed set — which
is at least as strict, so every row the model admits the schema admits.)
There is no check relating `min_salary` and `max_salary`. -/
def jobsRowCheck (r : JobRow) : Prop :=
  r.role_family ∈ roleFamilyValues ∧
  (∀ s ∈ r.seniority, s ∈ seniorityValues) ∧
  (∀ t ∈ r.location_type, t ∈ locationTypeValues) ∧
  (∀ t ∈ r.employment_type, t ∈ employmentTypeValues) ∧
  (∀ f ∈ r.freshness_score, 0 ≤ f ∧ f ≤ 1)

instance (r : JobRow) : Decidable (jobsRowCheck r) :=
  decidable_of_iff (r.role_family ∈ roleFamilyValues ∧
    (∀ s ∈ r.seniority, s ∈ seniorityValues) ∧
    (∀ t ∈ r.location_type, t ∈ locationTypeValues) ∧
    (∀ t ∈ r.employment_type, t ∈ employmentTypeValues) ∧
    (∀ f ∈ r.freshness_score, 0 ≤ f ∧ f ≤ 1)) Iff.rfl

/-- `UNIQUE(company_id, source_url)` on `jobs`, with SQL null-distinct
semantics: two rows conflict only when their `company_id`s are both present
and equal and their `source_url`s are equal. -/
def jobsConflict (a b : JobRow) : Prop :=
  a.company_id ≠ none ∧ a.company_id = b.company_id ∧
  a.source_url = b.source_url

/-- The states of the `jobs` table reachable through schema-admitted
operations: the empty table, an insert passing every declared constraint, or
a row deletion. -/
inductive JobsReachable : List JobRow → Prop where
  | nil : JobsReachable []
  | insert (s : List JobRow) (r : JobRow) (hs : JobsReachable s)
      (hchk : jobsRowCheck r) (huniq : ∀ x ∈ s, ¬ jobsConflict x r) :
      JobsReachable (s ++ [r])
  | delete (l₁ l₂ : List JobRow) (r : JobRow)
      (hs : JobsReachable (l₁ ++ r :: l₂)) : JobsReachable (l₁ ++ l₂)

/-- A row of the `candidate_profiles` table, column for column. -/
structure CandidateProfileRow where
  id : UUID
  waitlist_id : Option UUID
  email : String
  name : Option String
  role_families : Option (List String)
  seniority : Option String
  min_salary : Option ℤ
  locations : Option (List String)
  location_types : Option (List String)
  role_types : Option (List String)
  skills : Option (List String)
  exclusions : Option (List String)
  embedding : Option Vec384
  last_matched_at : Option Timestamp
  last_notified_at : Option Timestamp
  is_active : Option Bool
  created_at : Timestamp
  updated_at : Timestamp
deriving DecidableEq

/-- A row of the `matches` table, column for column (`match_reasons JSONB`
is kept opaque). -/
structure MatchRow where
  id : UUID
  candidate_id : Option UUID
  job_id : Option UUID
  score : ℚ
  hard_match : Option Bool
  match_reasons : Option String
  shown_at : Option Timestamp
  clicked_at : Option Timestamp
  applied_at : Option Timestamp
  dismissed_at : Option Timestamp
  created_at : Timestamp
deriving DecidableEq

/-- The check constraint on `matches`: `score >= 0 AND score <= 1`. -/
def matchRowCheck (r : MatchRow) : Prop := 0 ≤ r.score ∧ r.score ≤ 1

instance (r : MatchRow) : Decidable (matchRowCheck r) :=
  decidable_of_iff (0 ≤ r.score ∧ r.score ≤ 1) Iff.rfl

/-- `UNIQUE(candidate_id, job_id)` on `matches`, with SQL null-distinct
semantics: rows conflict only when both constrained columns are present and
equal in both rows. -/
def matchesConflict (a b : MatchRow) : Prop :=
  a.candidate_id ≠ none ∧ a.candidate_id = b.candidate_id ∧
  a.job_id ≠ none ∧ a.job_id = b.job_id

instance (a b : MatchRow) : Decidable (matchesConflict a b) :=
  decidable_of_iff (a.candidate_id ≠ none ∧ a.candidate_id = b.candidate_id ∧
    a.job_id ≠ none ∧ a.job_id = b.job_id) Iff.rfl

/-- Inserting into `matches`: the row is appended when it passes the score
check and conflicts with no existing row under `UNIQUE(candidate_id,
job_id)`; otherwise the insert fails and the state is unchanged. -/
def matches_insert (tbl : List MatchRow) (r : MatchRow) :
    Option (List MatchRow) :=
  if matchRowCheck r ∧ ∀ x ∈ tbl, ¬ matchesConflict x r then
    some (tbl ++ [r])
  else none

/-- The states of the `matches` table reachable through schema-admitted
operations: empty table, successful insert, row deletion. -/
inductive MatchesReachable : List MatchRow → Prop where
  | nil : MatchesReachable []
  | insert (s s' : List MatchRow) (r : MatchRow) (hs : MatchesReachable s)
      (h : matches_insert s r = some s') : MatchesReachable s'
  | delete (l₁ l₂ : List MatchRow) (r : MatchRow)
      (hs : MatchesReachable (l₁ ++ r :: l₂)) : MatchesReachable (l₁ ++ l₂)

/-! ## Vector similarity search (`find_similar_jobs`)

```sql
CREATE OR REPLACE FUNCTION find_similar_jobs(
    target_embedding vector(384),
    limit_count INTEGER DEFAULT 10,
    min_similarity FLOAT DEFAULT 0.5
)
RETURNS TABLE (job_id UUID, similarity FLOAT) AS $$
BEGIN
  RETURN QUERY
  SELECT j.id, 1 - (j.embedding <=> target_embedding) as similarity
  FROM jobs j
  WHERE j.is_active = TRUE
    AND j.embedding IS NOT NULL
    AND 1 - (j.embedding <=> target_embedding) >= min_similarity
  ORDER BY j.embedding <=> target_embedding
  LIMIT limit_count;
END;
```

pgvector's cosine-distance operator `<=>` lives in the extension, not in
this repository, so it enters the model as an explicit parameter `dist`;
cosine similarity is `1 - dist`, exactly as the query computes it. -/

/-- The SQL function `find_similar_jobs`, over an abstract distance
operator `dist` standing for pgvector's `<=>`. -/
def find_similar_jobs (dist : Vec384 → Vec384 → ℚ) (jobs : List JobRow)
    (target_embedding : Vec384) (limit_count : ℕ) (min_similarity : ℚ) :
    List (UUID × ℚ) :=
  (((jobs.filterMap (fun j =>
      match j.embedding with
      | none => none
      | some e =>
        if j.is_active = some true ∧ 1 - dist e target_embedding ≥ min_similarity
        then some (j.id, dist e target_embedding)
        else none)).mergeSort (fun a b => decide (a.2 ≤ b.2))).take
    limit_count).map (fun p => (p.1, 1 - p.2))

/-- The SQL default of the `limit_count` parameter. -/
def find_similar_jobs_default_limit : ℕ := 10

/-- The SQL default of the `min_similarity` parameter. -/
def find_similar_jobs_default_min_similarity : ℚ := 0.5

/-- **C1.** Candidate set generation: every returned pair comes from a job
that is active and has a (non-null) embedding, is returned only when its
cosine similarity `1 - dist` to the target is at least `min_similarity`
(whose declared default is 0.5), results are ordered by decreasing cosine
similarity, and at most `limit_count` rows are returned. -/
theorem c1_find_similar_jobs (dist : Vec384 → Vec384 → ℚ) (jobs : List JobRow)
    (target : Vec384) (limit_count : ℕ) (min_similarity : ℚ) :
    (∀ p ∈ find_similar_jobs dist jobs target limit_count min_similarity,
      min_similarity ≤ p.2 ∧
      ∃ j ∈ jobs, j.is_active = some true ∧ p.1 = j.id ∧
        ∃ e, j.embedding = some e ∧ p.2 = 1 - dist e target) ∧
    List.Pairwise (fun a b : UUID × ℚ => b.2 ≤ a.2)
      (find_similar_jobs dist jobs target limit_count min_similarity) ∧
    (find_similar_jobs dist jobs target limit_count min_similarity).length ≤
      limit_count ∧
    find_similar_jobs_default_min_similarity = 1 / 2 := by
  have htrans : ∀ a b c : UUID × ℚ, decide (a.2 ≤ b.2) → decide (b.2 ≤ c.2) →
      decide (a.2 ≤ c.2) := by
    intro a b c hab hbc
    exact decide_eq_true (le_trans (of_decide_eq_true hab) (of_decide_eq_true hbc))
  have htotal : ∀ a b : UUID × ℚ,
      (decide (a.2 ≤ b.2) || decide (b.2 ≤ a.2)) = true := by
    intro a b
    rcases le_total a.2 b.2 with h | h <;> simp [h]
  refine ⟨?_, ?_, ?_, by norm_num [find_similar_jobs_default_min_similarity]⟩
  · intro p hp
    rw [find_similar_jobs] at hp
    obtain ⟨q, hq, hpq⟩ := List.mem_map.mp hp
    have hq' : q ∈ (jobs.filterMap (fun j =>
        match j.embedding with
        | none => none
        | some e =>
          if j.is_active = some true ∧ 1 - dist e target ≥ min_similarity
          then some (j.id, dist e target)
          else none)) := by
      have := List.mem_of_mem_take hq
      exact List.mem_mergeSort.mp this
    obtain ⟨j, hj, hjq⟩ := List.mem_filterMap.mp hq'
    cases hemb : j.embedding with
    | none => rw [hemb] at hjq; exact absurd hjq (by simp)
    | some e =>
      rw [hemb] at hjq
      have hjq' : (if j.is_active = some true ∧
          1 - dist e target ≥ min_similarity then
            some (j.id, dist e target) else none) = some q := hjq
      by_cases hcond : j.is_active = some true ∧
          1 - dist e target ≥ min_similarity
      · rw [if_pos hcond] at hjq'
        obtain ⟨rfl⟩ := Option.some.inj hjq'
        subst hpq
        exact ⟨hcond.2, j, hj, hcond.1, rfl, e, hemb, rfl⟩
      · rw [if_neg hcond] at hjq'
        exact absurd hjq' (by simp)
  · rw [find_similar_jobs]
    rw [List.pairwise_map]
    have hsorted := List.sorted_mergeSort htrans htotal
      (jobs.filterMap (fun j =>
        match j.embedding with
        | none => none
        | some e =>
          if j.is_active = some true ∧ 1 - dist e target ≥ min_similarity
          then some (j.id, dist e target)
          else none))
    have htake := hsorted.sublist (List.take_sublist limit_count _)
    refine htake.imp ?_
    intro a b hab
    exact sub_le_sub_left (of_decide_eq_true hab) 1
  · rw [find_similar_jobs, List.length_map, List.length_take]
    exact Nat.min_le_left _ _

/-- The all-zeroes 384-dimensional vector, a concrete `vector(384)` value. -/
def zeroVec : Vec384 := ⟨List.replicate 384 0, List.length_replicate 384 0⟩

/-- Concrete instantiation of the candidate-set theorem: on an empty jobs
table the search returns at most the limit. -/
theorem c1_find_similar_jobs_witness :
    (find_similar_jobs (fun _ _ => 0) [] zeroVec 10 (1 / 2)).length ≤ 10 :=
  (c1_find_similar_jobs (fun _ _ => 0) [] zeroVec 10 (1 / 2)).2.2.1

/-- A jobs row satisfying every constraint the `jobs` DDL declares while
carrying `min_salary = 100000 > max_salary = 50000`: the DDL has no `CHECK`
relating the two salary columns. -/
def invertedSalaryJob : JobRow :=
  { id := 0, company_id := none, raw_job_id := none,
    title := "Backend Engineer", description := none,
    source_url := "https://acme.test/jobs/1",
    role_family := "software_engineering", role_specialization := none,
    seniority := none, location_type := none, locations := none,
    skills := none, min_salary := some 100000, max_salary := some 50000,
    employment_type := none, posted_at := none, freshness_score := none,
    embedding := none, is_active := some true, created_at := 0,
    updated_at := 0 }

/-- **C3.** Salary ordering: the claim — every schema-admitted state has
`min_salary ≤ max_salary` whenever both are present — fails on the code. The
`jobs` DDL checks `role_family`, `seniority`, `location_type`,
`employment_type` and `freshness_score`, but no constraint relates
`min_salary` to `max_salary`, so a single admitted insert reaches a state
with `min_salary > max_salary`. -/
theorem c3_salary_order_not_enforced :
    ∃ s, JobsReachable s ∧ ∃ r ∈ s, ∃ lo hi,
      r.min_salary = some lo ∧ r.max_salary = some hi ∧ hi < lo := by
  refine ⟨[invertedSalaryJob], ?_, invertedSalaryJob,
    List.mem_singleton_self _, 100000, 50000, rfl, rfl, by norm_num⟩
  exact JobsReachable.insert [] invertedSalaryJob JobsReachable.nil
    (by decide) (fun x hx => absurd hx (List.not_mem_nil x))

/-- **C8.** Embedding dimensionality: a persisted `jobs.embedding` or
`candidate_profiles.embedding` is a `vector(384)` value, so any present
embedding has length exactly 384 — the column type admits no other
dimension. -/
theorem c8_embedding_dimension (r : JobRow) (c : CandidateProfileRow) :
    (∀ v ∈ r.embedding, v.val.length = 384) ∧
    (∀ w ∈ c.embedding, w.val.length = 384) :=
  ⟨fun v _ => v.property, fun w _ => w.property⟩

/-- A jobs row persisting the all-zeroes embedding. -/
def sampleEmbeddedJob : JobRow :=
  { id := 1, company_id := none, raw_job_id := none, title := "ML Engineer",
    description := none, source_url := "https://acme.test/jobs/2",
    role_family := "data", role_specialization := none, seniority := none,
    location_type := none, locations := none, skills := none,
    min_salary := none, max_salary := none, employment_type := none,
    posted_at := none, freshness_score := none, embedding := some zeroVec,
    is_active := some true, created_at := 0, updated_at := 0 }

/-- A candidate profile persisting the all-zeroes embedding. -/
def sampleProfile : CandidateProfileRow :=
  { id := 2, waitlist_id := none, email := "a@acme.test", name := none,
    role_families := none, seniority := none, min_salary := none,
    locations := none, location_types := none, role_types := none,
    skills := none, exclusions := none, embedding := some zeroVec,
    last_matched_at := none, last_notified_at := none,
    is_active := some true, created_at := 0, updated_at := 0 }

/-- Concrete instantiation of the dimensionality theorem on rows persisting
the all-zeroes embedding. -/
theorem c8_embedding_dimension_witness :
    zeroVec.val.length = 384 ∧ zeroVec.val.length = 384 :=
  ⟨(c8_embedding_dimension sampleEmbeddedJob sampleProfile).1 zeroVec rfl,
   (c8_embedding_dimension sampleEmbeddedJob sampleProfile).2 zeroVec rfl⟩

/-- A match row whose `candidate_id` is NULL, referencing job 1; its id is
the parameter. -/
def nullCandMatch (i : UUID) : MatchRow :=
  { id := i, candidate_id := none, job_id := some 1, score := 9 / 10,
    hard_match := some false, match_reasons := none, shown_at := none,
    clicked_at := none, applied_at := none, dismissed_at := none,
    created_at := 0 }

/-- **C4 (counterexample).** With SQL null-distinct uniqueness, two distinct
rows sharing the pair `(NULL, job 1)` are reachable: inserting a second match
for that existing pair succeeds, so a `(candidate_id, job_id)` pair can
appear in two rows, refuting the claim as stated. -/
theorem c4_matches_pair_unique_counterexample :
    MatchesReachable [nullCandMatch 0, nullCandMatch 1] ∧
    ∃ a ∈ [nullCandMatch 0, nullCandMatch 1],
      ∃ b ∈ [nullCandMatch 0, nullCandMatch 1],
        a.candidate_id = b.candidate_id ∧ a.job_id = b.job_id ∧ a ≠ b := by
  constructor
  · have h1 : matches_insert [] (nullCandMatch 0) = some [nullCandMatch 0] := by
      unfold matches_insert
      rw [if_pos ⟨⟨by norm_num [nullCandMatch], by norm_num [nullCandMatch]⟩,
        by simp⟩]
      rfl
    have h2 : matches_insert [nullCandMatch 0] (nullCandMatch 1) =
        some [nullCandMatch 0, nullCandMatch 1] := by
      have hcond : matchRowCheck (nullCandMatch 1) ∧
          ∀ x ∈ [nullCandMatch 0], ¬ matchesConflict x (nullCandMatch 1) := by
        refine ⟨⟨by norm_num [nullCandMatch], by norm_num [nullCandMatch]⟩, ?_⟩
        intro x hx hconf
        rw [List.mem_singleton] at hx
        subst hx
        exact hconf.1 rfl
      unfold matches_insert
      rw [if_pos hcond]
      rfl
    exact MatchesReachable.insert _ _ _
      (MatchesReachable.insert _ _ _ MatchesReachable.nil h1) h2
  · refine ⟨nullCandMatch 0, by simp, nullCandMatch 1, by simp, rfl, rfl, ?_⟩
    intro h
    have h0 := congrArg MatchRow.id h
    simp [nullCandMatch] at h0

/-- **C4 (amended).** Match uniqueness restricted to fully-present pairs, as
SQL null-distinct `UNIQUE(candidate_id, job_id)` actually enforces: in every
reachable state each pair of non-null ids appears in at most one row, and
inserting a second match for such an existing pair fails, leaving the table
unchanged. -/
theorem c4_matches_pair_unique_amended (s : List MatchRow)
    (hs : MatchesReachable s) (c j : UUID) :
    ((s.filter (fun m =>
        decide (m.candidate_id = some c ∧ m.job_id = some j))).length ≤ 1) ∧
    (∀ r : MatchRow, r.candidate_id = some c → r.job_id = some j →
      (∃ x ∈ s, x.candidate_id = some c ∧ x.job_id = some j) →
      matches_insert s r = none) := by
  have key : ∀ t, MatchesReachable t → ∀ c' j' : UUID,
      ((t.filter (fun m =>
        decide (m.candidate_id = some c' ∧ m.job_id = some j'))).length ≤ 1) := by
    intro t ht
    induction ht with
    | nil => intro c' j'; simp
    | insert s₀ s₁ r hs₀ h ih =>
      intro c' j'
      unfold matches_insert at h
      by_cases hcond : matchRowCheck r ∧ ∀ x ∈ s₀, ¬ matchesConflict x r
      · rw [if_pos hcond] at h
        cases Option.some.inj h
        rw [List.filter_append, List.length_append]
        by_cases hr : r.candidate_id = some c' ∧ r.job_id = some j'
        · have hnil : s₀.filter (fun m =>
              decide (m.candidate_id = some c' ∧ m.job_id = some j')) = [] := by
            rw [List.filter_eq_nil_iff]
            intro x hx
            simp only [decide_eq_true_eq]
            intro hxm
            exact hcond.2 x hx ⟨by simp [hxm.1], hxm.1.trans hr.1.symm,
              by simp [hxm.2], hxm.2.trans hr.2.symm⟩
          rw [hnil]
          simp [hr]
        · have hone : ([r]).filter (fun m =>
              decide (m.candidate_id = some c' ∧ m.job_id = some j')) = [] := by
            simp [hr]
          rw [hone]
          simpa using ih c' j'
      · rw [if_neg hcond] at h
        exact absurd h (by simp)
    | delete l₁ l₂ r hs₀ ih =>
      intro c' j'
      have hsub : List.Sublist (l₁ ++ l₂) (l₁ ++ r :: l₂) :=
        List.Sublist.append_left (List.sublist_cons_self r l₂) l₁
      exact le_trans ((hsub.filter _).length_le) (ih c' j')
  refine ⟨key s hs c j, ?_⟩
  intro r hrc hrj hex
  obtain ⟨x, hx, hxc, hxj⟩ := hex
  unfold matches_insert
  rw [if_neg (fun hcond => hcond.2 x hx ⟨by simp [hxc], hxc.trans hrc.symm,
    by simp [hxj], hxj.trans hrj.symm⟩)]

/-- A match row with both ids present: candidate 7, job 1. -/
def sampleMatch : MatchRow :=
  { id := 5, candidate_id := some 7, job_id := some 1, score := 9 / 10,
    hard_match := some true, match_reasons := none, shown_at := none,
    clicked_at := none, applied_at := none, dismissed_at := none,
    created_at := 0 }

/-- Concrete instantiation of the amended match-uniqueness theorem on a
one-row reachable table. -/
theorem c4_matches_pair_unique_amended_witness :
    (([sampleMatch].filter (fun m =>
        decide (m.candidate_id = some 7 ∧ m.job_id = some 1))).length ≤ 1) ∧
    (∀ r : MatchRow, r.candidate_id = some 7 → r.job_id = some 1 →
      (∃ x ∈ [sampleMatch], x.candidate_id = some 7 ∧ x.job_id = some 1) →
      matches_insert [sampleMatch] r = none) :=
  c4_matches_pair_unique_amended [sampleMatch]
    (MatchesReachable.insert [] [sampleMatch] sampleMatch
      MatchesReachable.nil (by
        unfold matches_insert
        rw [if_pos ⟨⟨by norm_num [sampleMatch], by norm_num [sampleMatch]⟩,
          by simp⟩]
        rfl)) 7 1

/-! ## Waitlist signup (`supabase-migration.sql`, `WaitlistForm.handleSubmit`)

```sql
CREATE TABLE IF NOT EXISTS waitlist (
  id UUID DEFAULT gen_random_uuid() PRIMARY KEY,
  name TEXT NOT NULL,
  email TEXT UNIQUE NOT NULL,
  created_at TIMESTAMPTZ DEFAULT NOW()
);
```
-/

/-- A row of the `waitlist` table. -/
structure WaitlistRow where
  id : UUID
  name : String
  email : String
  created_at : Timestamp
deriving DecidableEq

/-- A Postgres error surfaced to the Supabase client; SQLSTATE `23505` is
`unique_violation`. -/
structure PgError where
  code : String
deriving DecidableEq

/-- Inserting into `waitlist`: `email TEXT UNIQUE NOT NULL` makes an insert
whose email already exists fail with error code `23505`, leaving the table
unchanged; otherwise the row is appended. -/
def waitlist_insert (tbl : List WaitlistRow) (r : WaitlistRow) :
    Except PgError (List WaitlistRow) :=
  if tbl.any (fun x => decide (x.email = r.email)) then
    Except.error { code := "23505" }
  else Except.ok (tbl ++ [r])

/-- The user-visible outcome of one `handleSubmit` call: the `error` state
set by `setError`, and the id passed to `onSuccess` when it was invoked. -/
structure SubmitOutcome where
  error_message : Option String
  onSuccess_arg : Option UUID
deriving DecidableEq

/-- `WaitlistForm.handleSubmit`:

```ts
const { data, error: insertError } = await getSupabase()
  .from('waitlist').insert({ name, email }).select('id').single()
if (insertError) {
  if (insertError.code === '23505') {
    setError('This email is already on the waitlist!')
  } else {
    setError('Something went wrong. Please try again.')
  }
  return
}
onSuccess(data.id)
```

`newId` stands for the `gen_random_uuid()` default assigned to the new row,
`now` for its `created_at` default. -/
def handleSubmit (tbl : List WaitlistRow) (name email : String)
    (newId : UUID) (now : Timestamp) :
    SubmitOutcome × List WaitlistRow :=
  match waitlist_insert tbl
      { id := newId, name := name, email := email, created_at := now } with
  | .error e =>
      ({ error_message := some (if e.code = "23505"
            then "This email is already on the waitlist!"
            else "Something went wrong. Please try again."),
         onSuccess_arg := none }, tbl)
  | .ok tbl' =>
      ({ error_message := none, onSuccess_arg := some newId }, tbl')

/-- **C9.** Waitlist duplicate email: when the submitted email already exists
in the `waitlist` table the insert fails with code `23505`, `handleSubmit`
displays "This email is already on the waitlist!", `onSuccess` is not
invoked, and the table is unchanged (no second row for that email). -/
theorem c9_waitlist_duplicate_email (tbl : List WaitlistRow)
    (name email : String) (newId : UUID) (now : Timestamp)
    (hdup : ∃ x ∈ tbl, x.email = email) :
    waitlist_insert tbl
        { id := newId, name := name, email := email, created_at := now } =
      Except.error { code := "23505" } ∧
    (handleSubmit tbl name email newId now).1.error_message =
      some "This email is already on the waitlist!" ∧
    (handleSubmit tbl name email newId now).1.onSuccess_arg = none ∧
    (handleSubmit tbl name email newId now).2 = tbl := by
  obtain ⟨x, hx, hxe⟩ := hdup
  have hany : tbl.any (fun x => decide (x.email = email)) = true :=
    List.any_eq_true.mpr ⟨x, hx, by simp [hxe]⟩
  have hins : waitlist_insert tbl
      { id := newId, name := name, email := email, created_at := now } =
      Except.error { code := "23505" } := by
    have hany' : tbl.any (fun x => decide (x.email =
        ({ id := newId, name := name, email := email,
           created_at := now } : WaitlistRow).email)) = true := hany
    unfold waitlist_insert
    rw [hany']
    rfl
  refine ⟨hins, ?_, ?_, ?_⟩
  · unfold handleSubmit
    rw [hins]
    rfl
  · unfold handleSubmit
    rw [hins]
  · unfold handleSubmit
    rw [hins]

/-- An existing waitlist signup used to exercise the duplicate path. -/
def existingSignup : WaitlistRow :=
  { id := 0, name := "Ada", email := "ada@acme.test", created_at := 0 }

/-- Concrete instantiation of the duplicate-email theorem: re-submitting an
email already on the waitlist shows the duplicate message, does not invoke
`onSuccess`, and leaves the table as it was. -/
theorem c9_waitlist_duplicate_email_witness :
    waitlist_insert [existingSignup]
        { id := 1, name := "Ada Again", email := "ada@acme.test",
          created_at := 5 } = Except.error { code := "23505" } ∧
    (handleSubmit [existingSignup] "Ada Again" "ada@acme.test" 1 5).1.error_message =
      some "This email is already on the waitlist!" ∧
    (handleSubmit [existingSignup] "Ada Again" "ada@acme.test" 1 5).1.onSuccess_arg =
      none ∧
    (handleSubmit [existingSignup] "Ada Again" "ada@acme.test" 1 5).2 =
      [existingSignup] :=
  c9_waitlist_duplicate_email [existingSignup] "Ada Again" "ada@acme.test" 1 5
    ⟨existingSignup, List.mem_singleton_self _, rfl⟩

/-! ## Pipeline status display (admin frontend, `isStageRunning`) -/

/-- The four pipeline stages of the admin status page (`StageType`). -/
inductive StageType where
  | discovery
  | crawl
  | enrich
  | embeddings
deriving DecidableEq

/-- The TS string value of a `StageType`. -/
def StageType.toStr : StageType → String
  | .discovery => "discovery"
  | .crawl => "crawl"
  | .enrich => "enrich"
  | .embeddings => "embeddings"

/-- The registry's per-operation status value (`OperationStatus` from
`@/lib/api`); `isStageRunning` never inspects it — only the keys of the
`Record<string, OperationStatus>` map matter — so it is opaque here. -/
structure OperationStatus where
  token : Unit
deriving DecidableEq

/-- A running pipeline run (`RunningPipelineRun` from `lib/api.ts`). -/
structure RunningPipelineRun where
  id : String
  stage : String
  status : String
  started_at : Option String
  processed : ℤ
  failed : ℤ
  error : Option String
  current_step : Option String
deriving DecidableEq

/-- `isStageRunning` from the admin pipeline page:

```ts
for (const opType of Object.keys(runningOps)) {
  if (opType === stageId) return true
  if (opType.startsWith(stageId + '_')) return true
  if (opType === 'full_pipeline') return true
}
for (const run of runningRuns) {
  if (run.status !== 'running') continue
  if (run.stage === stageId) return true
  if (run.stage.startsWith(stageId + '_')) return true
  if (run.stage === 'detect_ats' && stageId === 'discovery') return true
  if (run.stage === 'custom_crawl' && stageId === 'crawl') return true
}
return false
```

The early-return loops over the record entries and the run list are the two
`any` clauses. -/
def isStageRunning (stageId : StageType)
    (runningOps : List (String × OperationStatus))
    (runningRuns : List RunningPipelineRun) : Bool :=
  runningOps.any (fun kv =>
    kv.1 == stageId.toStr ||
    kv.1.startsWith (stageId.toStr ++ "_") ||
    kv.1 == "full_pipeline") ||
  runningRuns.any (fun run =>
    run.status == "running" &&
    (run.stage == stageId.toStr ||
     run.stage.startsWith (stageId.toStr ++ "_") ||
     (run.stage == "detect_ats" && stageId == StageType.discovery) ||
     (run.stage == "custom_crawl" && stageId == StageType.crawl)))

/-- **C10.** Full-pipeline subsumes all stages in the status display: for
every stage and every registry state, when the running-operations map holds
the key `"full_pipeline"`, `isStageRunning` returns `true` regardless of any
stage-specific operation or database run. -/
theorem c10_full_pipeline_subsumes (s : StageType)
    (runningOps : List (String × OperationStatus))
    (runningRuns : List RunningPipelineRun)
    (h : "full_pipeline" ∈ runningOps.map Prod.fst) :
    isStageRunning s runningOps runningRuns = true := by
  obtain ⟨kv, hkv, hfst⟩ := List.mem_map.mp h
  unfold isStageRunning
  rw [Bool.or_eq_true]
  left
  rw [List.any_eq_true]
  exact ⟨kv, hkv, by simp [hfst]⟩

/-- Concrete instantiation of the subsumption theorem: with only
`"full_pipeline"` in the registry and no stage-specific run, the crawl stage
is still displayed as running. -/
theorem c10_full_pipeline_subsumes_witness :
    isStageRunning StageType.crawl [("full_pipeline", { token := () })] [] =
      true :=
  c10_full_pipeline_subsumes StageType.crawl
    [("full_pipeline", { token := () })] [] (by simp)
